import Mathlib

/-!
Shallow embedding of the termunicator message view-model (src/main.go).

The embedding follows the Go source function by function.  Go `int` values
are modelled as `Int` (no arithmetic here approaches machine-word bounds).
Runtime-only fields of the Go `model` struct (platform and event-stream
handles, the user cache, the context/cancel pair, the blink flag and the
error field) are omitted: no embedded operation reads them.  The two
memoization caches (`displayMsgsCache`/`displayMsgsDirty` and
`navItemsCache`/`navItemsDirty`) are elided as observationally pure: every
mutation of `messages` in the source sets `displayMsgsDirty`, and every
mutation of `teams`/`channels`/`teamSelected` sets `navItemsDirty`, so the
cached value always equals the recomputation; `getDisplayMessages` and
`getNavItems` below are embedded as the recomputation paths of the source
functions of the same names.
-/

namespace Termu

/-- A chat message.  `rootID` models the `root_id` entry of the loosely
typed `Metadata` field: `none` stands for a nil metadata value, a value
that is not a string map, or a map without a string `root_id` entry;
`some r` stands for a map whose `root_id` entry is the string `r`. -/
structure Message where
  id : String
  channelID : String
  senderID : String
  text : String
  rootID : Option String
deriving DecidableEq, Repr

/-- Channel type: the source only distinguishes
`ChannelTypeDirectMessage`, `ChannelTypeGroupMessage` and everything else. -/
inductive ChannelType
  | direct
  | group
  | other
deriving DecidableEq, Repr

/-- A channel; only the fields the embedded operations read. -/
structure Channel where
  id : String
  type : ChannelType
deriving DecidableEq, Repr

/-- A team; only the id is read by the embedded operations. -/
structure Team where
  id : String
deriving DecidableEq, Repr

/-- Sidebar focus area (`focusArea` in the source). -/
inductive Focus
  | sidebar
  | main
deriving DecidableEq, Repr

/-- Navigation item type (`navItemType` in the source). -/
inductive NavItemType
  | team
  | channel
  | dm
deriving DecidableEq, Repr

/-- Navigation item (`navItem` in the source): a type tag plus an index
into the teams or channels array. -/
structure NavItem where
  itemType : NavItemType
  index : Int
deriving DecidableEq, Repr

/-- CLI configuration (`config` struct in the source). -/
structure Config where
  host : String
  token : String
  loginID : String
  password : String
  teamID : String
deriving DecidableEq, Repr

/-- The model state (`model` struct in the source), restricted to the
fields the embedded operations read or write. -/
structure Model where
  teams : List Team
  channels : List Channel
  messages : List Message
  currentTeam : Int
  current : Int
  selected : Int
  selectedType : NavItemType
  focus : Focus
  scrollOffset : Int
  messageCursor : Int
  input : String
  cursorPos : Int
  teamSelected : Bool
  connected : Bool
  width : Int
  height : Int
  config : Config
deriving DecidableEq, Repr

/-! Named constants from the source. -/

def messageFetchLimit : Int := 50

def messagePageJumpMin : Int := 5

def messagePageJumpDiv : Int := 2

def messagePrefetchBuffer : Int := 3

def defaultWidth : Int := 80

def defaultHeight : Int := 24

def minMessageHeight : Int := 3

/-- Default message value used for guarded list indexing (every use is
under a bounds guard mirrored from the source). -/
def defaultMsg : Message :=
  { id := "", channelID := "", senderID := "", text := "", rootID := none }

/-- Default channel value used for guarded list indexing. -/
def defaultChannel : Channel := { id := "", type := ChannelType.other }

/-- The `initialModel` constructor: fields set explicitly in the source,
all remaining fields at their Go zero values. -/
def initialModel (cfg : Config) : Model :=
  { teams := [], channels := [], messages := [], currentTeam := 0,
    current := -1, selected := 0, selectedType := NavItemType.team,
    focus := Focus.sidebar, scrollOffset := 0, messageCursor := -1,
    input := "", cursorPos := 0, teamSelected := false, connected := false,
    width := defaultWidth, height := defaultHeight, config := cfg }

/-- The `isThreadReply` predicate: true exactly when the metadata map has a
non-empty string `root_id` entry. -/
def isThreadReply (msg : Message) : Bool :=
  match msg.rootID with
  | none => false
  | some rootID => rootID != ""

/-- The `getDisplayMessages` filter (recompute path of the memoized source
function): drop every thread reply, keep order. -/
def getDisplayMessages (m : Model) : List Message :=
  m.messages.filter (fun msg => !isThreadReply msg)

/-- The `msgHeight` method: terminal height minus one input line, floored
at `minMessageHeight`. -/
def msgHeight (m : Model) : Int :=
  let h := m.height - 1
  if h < minMessageHeight then minMessageHeight else h

/-- Line count of one message as rendered: the length of
`strings.Split(text, "\n")`, which for the one-character separator equals
the number of newline characters plus one (always at least one); written
as the character count so it evaluates by kernel reduction. -/
def msgLines (msg : Message) : Int :=
  ((msg.text.toList.count (Char.ofNat 10)) : Int) + 1

/-- The forward-scan loop of `maxScroll`: starting at the front of the
display list, count how many messages fit in `H` lines, carrying the
accumulated line count and the fit count. -/
def msgsFitFrom (H : Int) : List Message → Int → Nat → Nat
  | [], _, fit => fit
  | msg :: rest, linesUsed, fit =>
    if linesUsed + msgLines msg > H ∧ 0 < fit then fit
    else
      let lu := linesUsed + msgLines msg
      if H ≤ lu then fit + 1 else msgsFitFrom H rest lu (fit + 1)

/-- The `maxScroll` method: display length minus the number of messages
that fit from the start, floored at zero. -/
def maxScroll (m : Model) : Int :=
  let d := getDisplayMessages m
  let total : Int := d.length
  if total = 0 then 0
  else
    let fit : Int := msgsFitFrom (msgHeight m) d 0 0
    let mx := total - fit
    if mx < 0 then 0 else mx

/-- The `clampScrollOffset` method: clamp into `[0, maxScroll]`. -/
def clampScrollOffset (m : Model) (offset : Int) : Int :=
  if offset < 0 then 0
  else
    let mx := maxScroll m
    if offset > mx then mx else offset

/-- The backward window-start loop shared by `ensureCursorVisible` and
`renderMessages`: walk back from index `start`, accumulating line counts,
until the height budget `H` would be exceeded (but always take at least
one message). -/
def windowStart (d : List Message) (H : Int) : Nat → Int → Nat
  | 0, _ => 0
  | start + 1, linesUsed =>
    if linesUsed < H then
      let L := msgLines (d.getD start defaultMsg)
      if linesUsed + L > H ∧ 0 < linesUsed then start + 1
      else windowStart d H start (linesUsed + L)
    else start + 1

/-- The `ensureCursorVisible` method: with no cursor, pin to bottom;
otherwise recompute the visible window for the current offset and, when
the cursor falls outside it, move the offset so the cursor becomes the
last visible message, then clamp. -/
def ensureCursorVisible (m : Model) : Model :=
  if m.messageCursor = -1 then { m with scrollOffset := 0 }
  else
    let d := getDisplayMessages m
    if d.length = 0 then m
    else
      let H := msgHeight m
      let total : Int := d.length
      let e0 := total - m.scrollOffset
      let e1 := if e0 > total then total else e0
      let eI := if e1 < 0 then 0 else e1
      let start : Int := windowStart d H eI.toNat 0
      let off1 :=
        if m.messageCursor < start then total - m.messageCursor - 1
        else m.scrollOffset
      let off2 :=
        if m.messageCursor ≥ eI then total - m.messageCursor - 1 else off1
      { m with scrollOffset := clampScrollOffset m off2 }

/-- The active channel id `m.channels[m.current].ID`; every use is guarded
by the `0 ≤ current < len(channels)` check from the source. -/
def activeChannelID (m : Model) : String :=
  (m.channels.getD m.current.toNat defaultChannel).id

/-- An older-history fetch request issued by a handler
(`fetchOlderMessages(platform, channelID, beforeID)` in the source). -/
structure FetchOlderReq where
  channelID : String
  beforeID : String
deriving DecidableEq, Repr

/-- The `newMessageMsg` case of `Update`: append the materialized message
to the buffer when it belongs to the active channel and its id is not
already present; keep the view pinned to the bottom when it was there. -/
def handleNewMessage (m : Model) (newMsg : Message) : Model :=
  if 0 ≤ m.current ∧ m.current < (m.channels.length : Int) then
    if newMsg.channelID = activeChannelID m then
      if m.messages.any (fun e => e.id == newMsg.id) then m
      else
        let wasAtBottom := m.scrollOffset = 0
        let m1 := { m with messages := m.messages ++ [newMsg] }
        if wasAtBottom then { m1 with scrollOffset := 0 }
        else { m1 with scrollOffset := clampScrollOffset m1 m1.scrollOffset }
    else m
  else m

/-- The `messagesMsg` case of `Update`: replace the buffer, reset scroll
and cursor; when the load is non-empty, has zero root posts and a channel
is active, issue one older fetch anchored at the first loaded message. -/
def handleMessagesMsg (m : Model) (msgs : List Message) :
    Model × Option FetchOlderReq :=
  let displayCount : Int := (msgs.filter (fun x => !isThreadReply x)).length
  let m1 := { m with messages := msgs, scrollOffset := 0, messageCursor := -1 }
  if displayCount = 0 ∧ 0 < msgs.length ∧ 0 ≤ m1.current ∧
      m1.current < (m1.channels.length : Int) then
    (m1, some { channelID := activeChannelID m1,
                beforeID := (msgs.getD 0 defaultMsg).id })
  else (m1, none)

/-- The deduplication loop of the `olderMessagesMsg` case: keep exactly
the fetched messages whose id does not occur in the existing buffer.  The
filter checks each batch element against `existing` only, never against
the other batch elements. -/
def dedupNew (existing batch : List Message) : List Message :=
  batch.filter (fun f => !(existing.any (fun e => e.id == f.id)))

/-- The `olderMessagesMsg` case of `Update`: deduplicate the batch against
the buffer, prepend the genuinely new messages, then either reveal newly
arrived root posts (shifting cursor and scroll), recurse with a new anchor
when only thread replies arrived, or stop when nothing new arrived or the
batch was empty. -/
def handleOlderMessages (m : Model) (msgs : List Message) :
    Model × Option FetchOlderReq :=
  if 0 < msgs.length then
    let newMessages := dedupNew m.messages msgs
    let displayCount : Int :=
      (newMessages.filter (fun x => !isThreadReply x)).length
    let m1 :=
      if 0 < newMessages.length then
        { m with messages := newMessages ++ m.messages }
      else m
    if 0 < displayCount then
      let m2 :=
        if 0 ≤ m1.messageCursor then
          { m1 with messageCursor := m1.messageCursor + displayCount }
        else m1
      let sc0 := displayCount / 2
      let sc1 := if sc0 > msgHeight m2 / 2 then msgHeight m2 / 2 else sc0
      let sc2 := if sc1 < 3 ∧ 3 ≤ displayCount then 3 else sc1
      let m3 := { m2 with scrollOffset := m2.scrollOffset + displayCount - sc2 }
      (ensureCursorVisible m3, none)
    else
      if 0 < newMessages.length ∧ 0 ≤ m1.current ∧
          m1.current < (m1.channels.length : Int) ∧ 0 < m1.messages.length then
        (m1, some { channelID := activeChannelID m1,
                    beforeID := (m1.messages.getD 0 defaultMsg).id })
      else (m1, none)
  else (m, none)

/-- The `up` case of `handleMainKeys`: initialize the cursor from the
bottom of the window, or move it up, or scroll, or (at the top of loaded
history with an active channel) fetch older messages. -/
def handleUpMain (m : Model) : Model × Option FetchOlderReq :=
  let d := getDisplayMessages m
  if d.length = 0 then (m, none)
  else if m.messageCursor = -1 then
    let total : Int := d.length
    let e := total - m.scrollOffset
    let c0 := if 0 < e then e - 1 else m.messageCursor
    let c1 := if c0 < 0 then 0 else c0
    let c2 := if c1 ≥ total then total - 1 else c1
    ({ m with messageCursor := c2 }, none)
  else if 0 < m.messageCursor then
    (ensureCursorVisible { m with messageCursor := m.messageCursor - 1 }, none)
  else if m.messageCursor = 0 then
    if m.scrollOffset < maxScroll m then
      ({ m with scrollOffset := clampScrollOffset m (m.scrollOffset + 1) }, none)
    else if maxScroll m ≤ m.scrollOffset ∧ 0 < m.messages.length ∧
        0 ≤ m.current ∧ m.current < (m.channels.length : Int) then
      (m, some { channelID := activeChannelID m,
                 beforeID := (m.messages.getD 0 defaultMsg).id })
    else (m, none)
  else (m, none)

/-- The `down` case of `handleMainKeys`: move the cursor down or scroll
toward the bottom; at the newest message with offset zero, do nothing. -/
def handleDownMain (m : Model) : Model :=
  let d := getDisplayMessages m
  if d.length = 0 then m
  else if m.messageCursor = -1 then
    if 0 < m.scrollOffset then
      { m with scrollOffset := clampScrollOffset m (m.scrollOffset - 1) }
    else m
  else if m.messageCursor < (d.length : Int) - 1 then
    ensureCursorVisible { m with messageCursor := m.messageCursor + 1 }
  else if m.messageCursor = (d.length : Int) - 1 then
    if 0 < m.scrollOffset then
      { m with scrollOffset := clampScrollOffset m (m.scrollOffset - 1) }
    else m
  else m

/-- The `pgup` case of `handleMainKeys`: jump the cursor up by half a
window (at least `messagePageJumpMin`), keep it visible, and prefetch
older history when the cursor lands within `messagePrefetchBuffer` of the
top. -/
def handlePgUpMain (m : Model) : Model × Option FetchOlderReq :=
  let d := getDisplayMessages m
  if d.length = 0 then (m, none)
  else
    let j0 := msgHeight m / messagePageJumpDiv
    let jump := if j0 < messagePageJumpMin then messagePageJumpMin else j0
    let total : Int := d.length
    let c0 :=
      if m.messageCursor = -1 then
        let e := total - m.scrollOffset
        if 0 < e then e - 1 else 0
      else m.messageCursor
    let c1 := c0 - jump
    let c2 := if c1 < 0 then 0 else c1
    let m1 := ensureCursorVisible { m with messageCursor := c2 }
    if m1.messageCursor < messagePrefetchBuffer ∧ 0 < m1.messages.length ∧
        0 ≤ m1.current ∧ m1.current < (m1.channels.length : Int) then
      (m1, some { channelID := activeChannelID m1,
                  beforeID := (m1.messages.getD 0 defaultMsg).id })
    else (m1, none)

/-- The `pgdown` case of `handleMainKeys`: jump the cursor down by half a
window (at least `messagePageJumpMin`), clamped to the last message, and
keep it visible. -/
def handlePgDownMain (m : Model) : Model :=
  let d := getDisplayMessages m
  if d.length = 0 then m
  else
    let j0 := msgHeight m / messagePageJumpDiv
    let jump := if j0 < messagePageJumpMin then messagePageJumpMin else j0
    let total : Int := d.length
    let c0 :=
      if m.messageCursor = -1 then
        let e := total - m.scrollOffset
        if 0 < e then e - 1 else 0
      else m.messageCursor
    let c1 := c0 + jump
    let c2 := if c1 ≥ total then total - 1 else c1
    ensureCursorVisible { m with messageCursor := c2 }

/-- The direct-or-group test applied to channel types in `getNavItems`. -/
def isDMLike : ChannelType → Bool
  | ChannelType.direct => true
  | ChannelType.group => true
  | ChannelType.other => false

/-- The `getNavItems` builder (recompute path of the memoized source
function): all teams in order, then, only when a team is selected, all
non-DM channels in order, then all DM and group channels in order. -/
def getNavItems (m : Model) : List NavItem :=
  let teamItems := (List.range m.teams.length).map
    (fun (i : Nat) => { itemType := NavItemType.team, index := (i : Int) : NavItem })
  if m.teamSelected then
    let chItems := (m.channels.enum.filter (fun p => !isDMLike p.2.type)).map
      (fun p => { itemType := NavItemType.channel, index := (p.1 : Int) : NavItem })
    let dmItems := (m.channels.enum.filter (fun p => isDMLike p.2.type)).map
      (fun p => { itemType := NavItemType.dm, index := (p.1 : Int) : NavItem })
    teamItems ++ chItems ++ dmItems
  else teamItems

/-- The `getCurrentNavPosition` scan: first item matching the selected
type and index, defaulting to zero. -/
def getCurrentNavPosition (m : Model) : Nat :=
  let items := getNavItems m
  match items.findIdx?
      (fun it => decide (it.itemType = m.selectedType ∧ it.index = m.selected)) with
  | some i => i
  | none => 0

/-- The `navigateSidebar` method: wrap-around cursor movement over the nav
items; `Int.tmod` is the Go `%` operator (truncated remainder), and the
negative result is normalized by adding the length. -/
def navigateSidebar (m : Model) (delta : Int) : Model :=
  let items := getNavItems m
  if items.length = 0 then m
  else
    let currentPos : Int := getCurrentNavPosition m
    let n : Int := items.length
    let r := Int.tmod (currentPos + delta) n
    let newPos := if r < 0 then r + n else r
    let it := items.getD newPos.toNat { itemType := NavItemType.team, index := 0 }
    { m with selected := it.index, selectedType := it.itemType }

/-- Outcome of the top of `main`: either `os.Exit(1)` before the model is
built, or the model is constructed and the event loop is started. -/
inductive StartupResult
  | exitBeforeModel (code : Nat)
  | runWithModel (m : Model)
deriving DecidableEq, Repr

/-- The flag-validation logic at the top of `main`: only a missing host
aborts before the model is constructed; every other configuration reaches
`tea.NewProgram(initialModel(cfg))`. -/
def mainStartup (cfg : Config) : StartupResult :=
  if cfg.host = "" then StartupResult.exitBeforeModel 1
  else StartupResult.runWithModel (initialModel cfg)

/-- Outcome of the pure validation prefix of `connectToMattermost` (which
runs asynchronously after the event loop has started). -/
inductive ConnectOutcome
  | configError (text : String)
  | proceedToConnect
deriving DecidableEq, Repr

/-- The validation prefix of `connectToMattermost`: missing host or
missing credentials yield an `errMsg` delivered to the running loop;
otherwise the network connection is attempted. -/
def connectValidate (cfg : Config) : ConnectOutcome :=
  if cfg.host = "" then ConnectOutcome.configError "-host is required"
  else
    let hasToken := cfg.token != ""
    let hasPassword := cfg.loginID != "" && cfg.password != ""
    if !hasToken && !hasPassword then
      ConnectOutcome.configError "authentication required"
    else ConnectOutcome.proceedToConnect

/-- The space case of `handleSidebarKeys`.  On a team item in range: set
the current team, clear the buffer and the input line (the cursor and the
scroll offset are NOT reset here), then call the platform; `chans` is the
platform response, `none` when `SetTeamID` or `GetChannels` returned an
error (the handler returns early with the buffer already cleared), `some
channels` on success, after which the selection moves to the first
channel-or-DM nav item.  On a channel or DM item in range: make it
current, reset scroll and cursor, clear the buffer and the input line and
focus the main area (the `fetchMessages` command it issues is an
initial-load fetch, not an older-history fetch). -/
def handleSpaceSidebar (m : Model) (chans : Option (List Channel)) : Model :=
  if m.selectedType = NavItemType.team then
    if 0 ≤ m.selected ∧ m.selected < (m.teams.length : Int) then
      let m1 := { m with
        currentTeam := m.selected, teamSelected := true,
        messages := [], input := "", cursorPos := 0 }
      match chans with
      | none => m1
      | some channels =>
        let m2 := { m1 with channels := channels, current := -1 }
        match (getNavItems m2).find? (fun it =>
            decide (it.itemType = NavItemType.channel ∨
              it.itemType = NavItemType.dm)) with
        | some it => { m2 with selected := it.index, selectedType := it.itemType }
        | none => m2
    else m
  else if m.selectedType = NavItemType.channel ∨
      m.selectedType = NavItemType.dm then
    if 0 ≤ m.selected ∧ m.selected < (m.channels.length : Int) then
      { m with
        current := m.selected, scrollOffset := 0, messageCursor := -1,
        messages := [], input := "", cursorPos := 0, focus := Focus.main }
    else m
  else m

/-- The event-loop inputs covered by the claims: terminal resizes, the
focus toggle, the four message-area movement keys and the space key
(dispatched to the sidebar handler when the sidebar has focus, exactly as
`Update` tries the handlers in order), the connect result and the three
fetch-result messages.  Platform responses consumed inside a case (the
channel list of a team select, the team and channel lists of the connect
result) are carried as input data.  The remaining `Update` cases are
outside the alphabet because they touch none of the state the claims
constrain and issue no older-history fetch: quit, the input-line editing
keys and enter (which edit only `input`/`cursorPos`; enter issues an
initial-load fetch), the event-stream dispatch (which issues a
single-message fetch), the error message and the blink tick. -/
inductive Input
  | resize (w h : Int)
  | keyCtrlB
  | keyUp
  | keyDown
  | keyPgUp
  | keyPgDown
  | keySpace (chans : Option (List Channel))
  | connected (teams : List Team) (channels : List Channel)
  | newMessage (msg : Message)
  | messagesLoad (msgs : List Message)
  | olderMessages (msgs : List Message)
deriving DecidableEq, Repr

/-- One step of the `Update` function on the embedded input alphabet,
returning the next model and the older-fetch request it issues, if any
(the event-stream re-arm command is not a fetch and is not modelled). -/
def step (m : Model) (i : Input) : Model × Option FetchOlderReq :=
  match i with
  | Input.resize w h => ({ m with width := w, height := h }, none)
  | Input.keyCtrlB =>
    (if m.focus = Focus.sidebar then { m with focus := Focus.main }
     else { m with focus := Focus.sidebar }, none)
  | Input.keyUp =>
    if m.focus = Focus.sidebar then (navigateSidebar m (-1), none)
    else handleUpMain m
  | Input.keyDown =>
    if m.focus = Focus.sidebar then (navigateSidebar m 1, none)
    else (handleDownMain m, none)
  | Input.keyPgUp =>
    if m.focus = Focus.main then handlePgUpMain m else (m, none)
  | Input.keyPgDown =>
    if m.focus = Focus.main then (handlePgDownMain m, none) else (m, none)
  | Input.keySpace chans =>
    if m.focus = Focus.sidebar then (handleSpaceSidebar m chans, none)
    else ({ m with input := m.input ++ " ", cursorPos := m.cursorPos + 1 },
      none)
  | Input.connected teams channels =>
    let m1 := { m with
      teams := teams, channels := channels, connected := true }
    if m1.config.teamID != "" then
      match m1.teams.findIdx? (fun t => t.id == m1.config.teamID) with
      | some idx => ({ m1 with currentTeam := (idx : Int) }, none)
      | none => (m1, none)
    else (m1, none)
  | Input.newMessage msg => (handleNewMessage m msg, none)
  | Input.messagesLoad msgs => handleMessagesMsg m msgs
  | Input.olderMessages msgs => handleOlderMessages m msgs

/-- Run a trace of inputs, accumulating every fetch request issued along
the way; since no fetch result for these requests is delivered inside the
trace, the accumulated list is the set of outstanding requests. -/
def runTrace (m : Model) (inputs : List Input) : Model × List FetchOlderReq :=
  inputs.foldl
    (fun acc i =>
      let s := step acc.1 i
      (s.1, acc.2 ++ s.2.toList))
    (m, [])

/-- A message-buffer operation: a live append (`newMessageMsg`) or an
older-batch prepend (`olderMessagesMsg`). -/
inductive StoreOp
  | appendNew (msg : Message)
  | prependOld (batch : List Message)
deriving DecidableEq, Repr

/-- Apply one buffer operation to the model. -/
def applyStoreOp (m : Model) (op : StoreOp) : Model :=
  match op with
  | StoreOp.appendNew msg => handleNewMessage m msg
  | StoreOp.prependOld batch => (handleOlderMessages m batch).1

/-- Apply a sequence of buffer operations in order. -/
def applyStoreOps (m : Model) (ops : List StoreOp) : Model :=
  ops.foldl applyStoreOp m

/-- Iterate `navigateSidebar` with delta plus one. -/
def navIter (m : Model) : Nat → Model
  | 0 => m
  | k + 1 => navIter (navigateSidebar m 1) k

/-! Concrete fixtures used by witnesses and counterexamples. -/

/-- A configuration with a host and a token. -/
def cfg0 : Config :=
  { host := "example.com", token := "tok", loginID := "", password := "",
    teamID := "" }

/-- A configuration with an empty host. -/
def cfgEmptyHost : Config :=
  { host := "", token := "tok", loginID := "", password := "", teamID := "" }

/-- A configuration with a host but neither token nor username/password. -/
def cfgHostNoCreds : Config :=
  { host := "example.com", token := "", loginID := "", password := "",
    teamID := "" }

/-- A non-DM channel with id `c1`. -/
def chanMain : Channel := { id := "c1", type := ChannelType.other }

/-- A single-line root post in channel `c1`. -/
def mkMsg (i : String) : Message :=
  { id := i, channelID := "c1", senderID := "u", text := "x", rootID := none }

/-- A single-line thread reply in channel `c1`. -/
def mkReply (i : String) : Message :=
  { id := i, channelID := "c1", senderID := "u", text := "x",
    rootID := some "r" }

/-- Three root posts. -/
def msgs3 : List Message := [mkMsg "a", mkMsg "b", mkMsg "c"]

/-- Ten root posts. -/
def msgs10 : List Message :=
  ["a", "b", "c", "d", "e", "f", "g", "h", "i", "j"].map mkMsg

/-- A model with channel `c1` active and the main area focused. -/
def testModel : Model :=
  { initialModel cfg0 with
    channels := [chanMain], current := 0,
    focus := Focus.main, connected := true }

/-- A root post belonging to channel `c2`, not the active channel `c1`. -/
def staleLoad : Message :=
  { id := "x", channelID := "c2", senderID := "u", text := "t", rootID := none }

/-- A root post (used twice inside one batch for the duplication test). -/
def dupMsg : Message := mkMsg "a"

/-- Trace for the pagination counterexample: load three messages, walk the
cursor to the top, then press up twice more at the top. -/
def traceC3 : List Input :=
  [Input.messagesLoad msgs3] ++ List.replicate 5 Input.keyUp

/-- The model at the top of loaded history (cursor on the first message,
no scroll room left). -/
def mTopC3 : Model :=
  (runTrace testModel ([Input.messagesLoad msgs3] ++
    List.replicate 4 Input.keyUp)).1

/-- Trace for the resize counterexample: from the initial model, load ten
messages, shrink the terminal, focus the main area, walk the cursor and
scroll to the top of loaded history, then grow the terminal again. -/
def traceC4 : List Input :=
  [Input.messagesLoad msgs10, Input.resize 80 4, Input.keyCtrlB] ++
  List.replicate 12 Input.keyUp ++ [Input.resize 80 24]

/-- Trace for the team-select counterexample: from the initial model,
receive the connect result with one team, load three messages, focus the
main area, place the cursor, return to the sidebar and select the team
with the space key (the platform returning one channel). -/
def traceC4b : List Input :=
  [Input.connected [{ id := "t1" }] [], Input.messagesLoad msgs3,
   Input.keyCtrlB, Input.keyUp, Input.keyCtrlB,
   Input.keySpace (some [chanMain])]

/-- A buffer-operation sequence mixing a live append and an older-batch
prepend with internally distinct ids. -/
def opsW : List StoreOp :=
  [StoreOp.appendNew (mkMsg "d"), StoreOp.prependOld [mkMsg "p", mkMsg "q"]]

/-- A model with two teams and a mixed channel list, a team selected and
the first team as the current sidebar selection. -/
def navModel : Model :=
  { initialModel cfg0 with
    teams := [{ id := "t1" }, { id := "t2" }],
    teamSelected := true,
    channels := [chanMain, { id := "c2", type := ChannelType.direct },
                 { id := "c3", type := ChannelType.other }],
    selected := 0,
    selectedType := NavItemType.team }

/-- A model holding three root posts with the cursor on the second
display entry. -/
def mCursor : Model :=
  { testModel with messages := msgs3, messageCursor := 1 }

/-- An older batch with one new root post and one new thread reply. -/
def batchC10 : List Message := [mkMsg "p", mkReply "r9"]

/-- The scroll/cursor invariant of the spec: the offset lies between zero
and `maxScroll`, and the cursor lies between minus one and the last
display index. -/
def ScrollInv (m : Model) : Prop :=
  0 ≤ m.scrollOffset ∧ m.scrollOffset ≤ maxScroll m ∧
  -1 ≤ m.messageCursor ∧
  m.messageCursor ≤ ((getDisplayMessages m).length : Int) - 1

/-! Helper lemmas. -/

/-- The maximum scroll offset is never negative. -/
theorem maxScroll_nonneg (m : Model) : 0 ≤ maxScroll m := by
  unfold maxScroll
  dsimp only
  split
  · exact le_refl 0
  · split <;> omega

/-- The clamped offset lies in `[0, maxScroll]`. -/
theorem clampScrollOffset_mem (m : Model) (x : Int) :
    0 ≤ clampScrollOffset m x ∧ clampScrollOffset m x ≤ maxScroll m := by
  unfold clampScrollOffset
  dsimp only
  have h := maxScroll_nonneg m
  split
  · exact ⟨le_refl 0, h⟩
  · split <;> omega

/-- The display list only depends on the message buffer. -/
theorem getDisplayMessages_congr {m1 m2 : Model}
    (h : m1.messages = m2.messages) :
    getDisplayMessages m1 = getDisplayMessages m2 := by
  unfold getDisplayMessages
  rw [h]

/-- The message height only depends on the terminal height. -/
theorem msgHeight_congr {m1 m2 : Model} (h : m1.height = m2.height) :
    msgHeight m1 = msgHeight m2 := by
  unfold msgHeight
  rw [h]

/-- The maximum scroll offset only depends on the display list and the
message height. -/
theorem maxScroll_eq_of_display {m1 m2 : Model}
    (hd : getDisplayMessages m1 = getDisplayMessages m2)
    (hh : m1.height = m2.height) : maxScroll m1 = maxScroll m2 := by
  unfold maxScroll
  rw [hd, msgHeight_congr hh]

/-- The clamp only depends on the display list and the message height. -/
theorem clampScrollOffset_eq_of_display {m1 m2 : Model}
    (hd : getDisplayMessages m1 = getDisplayMessages m2)
    (hh : m1.height = m2.height) (x : Int) :
    clampScrollOffset m1 x = clampScrollOffset m2 x := by
  unfold clampScrollOffset
  rw [maxScroll_eq_of_display hd hh]

/-- `ensureCursorVisible` only rewrites the scroll offset. -/
theorem ensureCursorVisible_shape (m : Model) :
    ∃ off : Int, ensureCursorVisible m = { m with scrollOffset := off } := by
  unfold ensureCursorVisible
  split
  · exact ⟨0, rfl⟩
  · dsimp only
    split
    · exact ⟨m.scrollOffset, rfl⟩
    · exact ⟨_, rfl⟩

/-- `ensureCursorVisible` keeps every field but the scroll offset. -/
theorem ensureCursorVisible_fields (m : Model) :
    (ensureCursorVisible m).messages = m.messages ∧
    (ensureCursorVisible m).messageCursor = m.messageCursor ∧
    (ensureCursorVisible m).height = m.height := by
  obtain ⟨off, h⟩ := ensureCursorVisible_shape m
  rw [h]
  exact ⟨rfl, rfl, rfl⟩

/-- The offset produced by `ensureCursorVisible`: zero when there is no
cursor, untouched on an empty display list, clamped otherwise. -/
theorem ensureCursorVisible_offset (m : Model) :
    (m.messageCursor = -1 ∧ (ensureCursorVisible m).scrollOffset = 0) ∨
    (m.messageCursor ≠ -1 ∧ (getDisplayMessages m).length = 0 ∧
      ensureCursorVisible m = m) ∨
    (0 ≤ (ensureCursorVisible m).scrollOffset ∧
      (ensureCursorVisible m).scrollOffset ≤ maxScroll m) := by
  unfold ensureCursorVisible
  split
  · rename_i h
    exact Or.inl ⟨h, rfl⟩
  · rename_i h
    dsimp only
    split
    · rename_i h2
      exact Or.inr (Or.inl ⟨h, h2, rfl⟩)
    · exact Or.inr (Or.inr (clampScrollOffset_mem m _))

/-- Negating the dividend negates the truncated remainder. -/
theorem tmod_neg_left (a n : Int) : Int.tmod (-a) n = -Int.tmod a n := by
  rw [Int.tmod_def, Int.tmod_def, Int.neg_tdiv]
  ring

/-- The truncated remainder stays above the negated positive modulus. -/
theorem neg_lt_tmod (a n : Int) (hn : 0 < n) : -n < Int.tmod a n := by
  rcases le_or_lt 0 a with ha | ha
  · have h := Int.tmod_nonneg n ha
    omega
  · have h1 : Int.tmod (-a) n < n := Int.tmod_lt_of_pos (-a) hn
    rw [tmod_neg_left] at h1
    omega

/-- Normalizing the truncated remainder (the Go `%`) by adding the
modulus when negative gives the mathematical (Euclidean) remainder. -/
theorem tmod_normalize (a n : Int) (hn : 0 < n) :
    (if Int.tmod a n < 0 then Int.tmod a n + n else Int.tmod a n) = a % n := by
  have h1 : Int.tmod a n % n = a % n := by
    conv_rhs => rw [← Int.tmod_add_tdiv a n]
    rw [Int.add_mul_emod_self_left]
  have h2 : Int.tmod a n < n := Int.tmod_lt_of_pos a hn
  have h3 : -n < Int.tmod a n := neg_lt_tmod a n hn
  rw [← h1]
  split
  · rename_i h
    have e1 : (Int.tmod a n + n * 1) % n = Int.tmod a n % n :=
      Int.add_mul_emod_self_left (Int.tmod a n) n 1
    have e2 : (Int.tmod a n + n * 1) % n = Int.tmod a n + n * 1 :=
      Int.emod_eq_of_lt (by omega) (by omega)
    omega
  · rename_i h
    rw [Int.emod_eq_of_lt (by omega) h2]

/-- The nav items built from one tag and distinct indices are distinct. -/
theorem navTag_map_nodup (t : NavItemType) (l : List Nat) (hl : l.Nodup) :
    (l.map (fun (k : Nat) =>
      ({ itemType := t, index := (k : Int) } : NavItem))).Nodup :=
  List.Nodup.map
    (fun a b h => by
      have h2 := congrArg NavItem.index h
      simpa using h2)
    hl

/-- Every nav item built from one tag carries that tag. -/
theorem navTag_map_mem (t : NavItemType) (l : List Nat) (x : NavItem)
    (hx : x ∈ l.map (fun (k : Nat) =>
      ({ itemType := t, index := (k : Int) } : NavItem))) :
    x.itemType = t := by
  rw [List.mem_map] at hx
  obtain ⟨k, _, rfl⟩ := hx
  rfl

/-- The nav-item list never repeats an item: the three segments carry
distinct tags, and each segment enumerates distinct indices. -/
theorem getNavItems_nodup (m : Model) : (getNavItems m).Nodup := by
  unfold getNavItems
  dsimp only
  have hteam := navTag_map_nodup NavItemType.team
    (List.range m.teams.length) (List.nodup_range m.teams.length)
  split
  · have hch0 : ((m.channels.enum.filter
        (fun p => !isDMLike p.2.type)).map Prod.fst).Nodup :=
      List.Nodup.sublist
        (List.Sublist.map Prod.fst (List.filter_sublist _))
        (by rw [List.enum_map_fst]; exact List.nodup_range m.channels.length)
    have hdm0 : ((m.channels.enum.filter
        (fun p => isDMLike p.2.type)).map Prod.fst).Nodup :=
      List.Nodup.sublist
        (List.Sublist.map Prod.fst (List.filter_sublist _))
        (by rw [List.enum_map_fst]; exact List.nodup_range m.channels.length)
    have ech : (m.channels.enum.filter (fun p => !isDMLike p.2.type)).map
        (fun p => ({ itemType := NavItemType.channel, index := (p.1 : Int) } : NavItem)) =
        ((m.channels.enum.filter (fun p => !isDMLike p.2.type)).map Prod.fst).map
          (fun (k : Nat) => ({ itemType := NavItemType.channel, index := (k : Int) } : NavItem)) := by
      rw [List.map_map]
      rfl
    have edm : (m.channels.enum.filter (fun p => isDMLike p.2.type)).map
        (fun p => ({ itemType := NavItemType.dm, index := (p.1 : Int) } : NavItem)) =
        ((m.channels.enum.filter (fun p => isDMLike p.2.type)).map Prod.fst).map
          (fun (k : Nat) => ({ itemType := NavItemType.dm, index := (k : Int) } : NavItem)) := by
      rw [List.map_map]
      rfl
    rw [ech, edm]
    rw [List.nodup_append, List.nodup_append]
    refine ⟨⟨hteam, navTag_map_nodup _ _ hch0, ?_⟩,
      navTag_map_nodup _ _ hdm0, ?_⟩
    · intro x hx hx2
      have e1 := navTag_map_mem _ _ _ hx
      have e2 := navTag_map_mem _ _ _ hx2
      rw [e1] at e2
      exact absurd e2 (by decide)
    · intro x hx hx2
      have e2 := navTag_map_mem _ _ _ hx2
      rw [List.mem_append] at hx
      rcases hx with hx | hx
      · have e1 := navTag_map_mem _ _ _ hx
        rw [e1] at e2
        exact absurd e2 (by decide)
      · have e1 := navTag_map_mem _ _ _ hx
        rw [e1] at e2
        exact absurd e2 (by decide)
  · exact hteam

/-- In a distinct nav list, the index scan finds exactly the position of
the selected item. -/
theorem findIdx_sel (l : List NavItem) (t : NavItemType) (s : Int) :
    ∀ (i p : Nat), p < l.length → l.Nodup →
    l.getD p { itemType := NavItemType.team, index := 0 } =
      { itemType := t, index := s } →
    l.findIdx? (fun it => decide (it.itemType = t ∧ it.index = s)) i =
      some (i + p) := by
  induction l with
  | nil =>
    intro i p hp
    exact absurd hp (Nat.not_lt_zero p)
  | cons a l ih =>
    intro i p hp hnd hget
    rw [List.findIdx?_cons]
    cases p with
    | zero =>
      have ha : a = { itemType := t, index := s } := by simpa using hget
      subst ha
      rw [if_pos (by simp)]
      simp
    | succ p =>
      have hpl : p < l.length := Nat.lt_of_succ_lt_succ hp
      have hget2 : l.getD p { itemType := NavItemType.team, index := 0 } =
          { itemType := t, index := s } := by
        simpa using hget
      have hmem : ({ itemType := t, index := s } : NavItem) ∈ l := by
        rw [← hget2, List.getD_eq_getElem _ _ hpl]
        exact List.getElem_mem hpl
      have hax : a ≠ { itemType := t, index := s } :=
        fun h => (List.nodup_cons.mp hnd).1 (h ▸ hmem)
      rw [if_neg ?_]
      · rw [ih (i + 1) p hpl (List.nodup_cons.mp hnd).2 hget2]
        congr 1
        omega
      · simp only [decide_eq_true_eq]
        rintro ⟨h1, h2⟩
        exact hax (by cases a; simp_all)

/-- The current nav position is the position of the selected item when
the selection occurs in the list. -/
theorem getCurrentNavPosition_eq (m : Model) (p : Nat)
    (hp : p < (getNavItems m).length)
    (hsel : (getNavItems m).getD p { itemType := NavItemType.team, index := 0 } =
      { itemType := m.selectedType, index := m.selected }) :
    getCurrentNavPosition m = p := by
  unfold getCurrentNavPosition
  dsimp only
  rw [findIdx_sel (getNavItems m) m.selectedType m.selected 0 p hp
    (getNavItems_nodup m) hsel]
  simp

/-- The nav-item list only depends on the teams, the channels and the
team-selected flag. -/
theorem getNavItems_congr {m1 m2 : Model} (ht : m1.teams = m2.teams)
    (hc : m1.channels = m2.channels) (hs : m1.teamSelected = m2.teamSelected) :
    getNavItems m1 = getNavItems m2 := by
  unfold getNavItems
  rw [ht, hc, hs]

/-- One sidebar navigation from a selection at position `p` keeps the nav
inputs unchanged and moves the selection to position
`(p + delta) mod length` in the Euclidean sense. -/
theorem navigateSidebar_sel (m : Model) (delta : Int) (p : Nat)
    (hp : p < (getNavItems m).length)
    (hsel : (getNavItems m).getD p { itemType := NavItemType.team, index := 0 } =
      { itemType := m.selectedType, index := m.selected }) :
    (navigateSidebar m delta).teams = m.teams ∧
    (navigateSidebar m delta).channels = m.channels ∧
    (navigateSidebar m delta).teamSelected = m.teamSelected ∧
    ({ itemType := (navigateSidebar m delta).selectedType,
       index := (navigateSidebar m delta).selected } : NavItem) =
      (getNavItems m).getD
        (((p : Int) + delta) % ((getNavItems m).length : Int)).toNat
        { itemType := NavItemType.team, index := 0 } := by
  have hn : 0 < ((getNavItems m).length : Int) := by
    omega
  unfold navigateSidebar
  dsimp only
  rw [if_neg (by omega)]
  rw [getCurrentNavPosition_eq m p hp hsel]
  rw [tmod_normalize ((p : Int) + delta) ((getNavItems m).length : Int) hn]
  exact ⟨rfl, rfl, rfl, rfl⟩

/-- Iterating single-step navigation from a selection at position `p`
keeps the nav list fixed and lands the selection at position
`(p + k) mod length`. -/
theorem navIter_sel (k : Nat) : ∀ (m : Model) (p : Nat),
    p < (getNavItems m).length →
    (getNavItems m).getD p { itemType := NavItemType.team, index := 0 } =
      { itemType := m.selectedType, index := m.selected } →
    getNavItems (navIter m k) = getNavItems m ∧
    ({ itemType := (navIter m k).selectedType,
       index := (navIter m k).selected } : NavItem) =
      (getNavItems m).getD ((p + k) % (getNavItems m).length)
        { itemType := NavItemType.team, index := 0 } := by
  induction k with
  | zero =>
    intro m p hp hsel
    refine ⟨rfl, ?_⟩
    rw [Nat.add_zero, Nat.mod_eq_of_lt hp]
    exact hsel.symm
  | succ k ih =>
    intro m p hp hsel
    obtain ⟨ht, hc, hts, hsel1⟩ := navigateSidebar_sel m 1 p hp hsel
    have hitems : getNavItems (navigateSidebar m 1) = getNavItems m :=
      getNavItems_congr ht hc hts
    have hn0 : 0 < (getNavItems m).length := by omega
    have hq : (((p : Int) + 1) % ((getNavItems m).length : Int)).toNat =
        (p + 1) % (getNavItems m).length := by
      have e : (((p + 1) % (getNavItems m).length : Nat) : Int) =
          ((p : Int) + 1) % ((getNavItems m).length : Int) := by
        rw [Int.ofNat_emod]
        push_cast
        ring_nf
      omega
    have hq_lt : (p + 1) % (getNavItems m).length < (getNavItems m).length :=
      Nat.mod_lt _ hn0
    rw [hq] at hsel1
    have hsel1g : (getNavItems (navigateSidebar m 1)).getD
        ((p + 1) % (getNavItems m).length)
        { itemType := NavItemType.team, index := 0 } =
        { itemType := (navigateSidebar m 1).selectedType,
          index := (navigateSidebar m 1).selected } := by
      rw [hitems]
      exact hsel1.symm
    have hres := ih (navigateSidebar m 1) ((p + 1) % (getNavItems m).length)
      (by rw [hitems]; exact hq_lt) hsel1g
    simp only [navIter]
    refine ⟨hres.1.trans hitems, ?_⟩
    rw [hres.2, hitems, Nat.mod_add_mod]
    have e2 : p + 1 + k = p + (k + 1) := by omega
    rw [e2]

/-- The live-append handler either leaves the buffer alone or appends the
one new message, and in the latter case no existing id equals the new id. -/
theorem handleNewMessage_messages (m : Model) (msg : Message) :
    (handleNewMessage m msg).messages = m.messages ∨
    ((handleNewMessage m msg).messages = m.messages ++ [msg] ∧
      m.messages.any (fun e => e.id == msg.id) = false) := by
  unfold handleNewMessage
  split
  · split
    · split
      · exact Or.inl rfl
      · rename_i hany
        dsimp only
        split
        · exact Or.inr ⟨rfl, by simpa using hany⟩
        · exact Or.inr ⟨rfl, by simpa using hany⟩
    · exact Or.inl rfl
  · exact Or.inl rfl

/-- The older-batch handler either leaves the buffer alone or prepends
exactly the deduplicated new messages. -/
theorem handleOlderMessages_messages (m : Model) (batch : List Message) :
    (handleOlderMessages m batch).1.messages = m.messages ∨
    (handleOlderMessages m batch).1.messages =
      dedupNew m.messages batch ++ m.messages := by
  unfold handleOlderMessages
  dsimp only
  split
  · split
    · rw [(ensureCursorVisible_fields _).1]
      split <;> split <;> simp
    · split <;> split <;> simp_all
  · exact Or.inl rfl

/-- Every message kept by the dedup filter has an id absent from the
existing buffer. -/
theorem dedupNew_not_mem (existing batch : List Message) (b : Message)
    (hb : b ∈ dedupNew existing batch) :
    ∀ e ∈ existing, ¬ e.id = b.id := by
  intro e he heq
  rw [dedupNew, List.mem_filter] at hb
  have h2 := hb.2
  simp only [Bool.not_eq_eq_eq_not, Bool.not_true, List.any_eq_false] at h2
  exact h2 e he (by simp [heq])

/-- Prepending the deduplicated part of an internally id-distinct batch
preserves distinctness of buffer ids. -/
theorem nodup_ids_prepend (existing batch : List Message)
    (hB : (batch.map (fun x => x.id)).Nodup)
    (hE : (existing.map (fun x => x.id)).Nodup) :
    ((dedupNew existing batch ++ existing).map (fun x => x.id)).Nodup := by
  rw [List.map_append, List.nodup_append]
  refine ⟨?_, hE, ?_⟩
  · exact List.Nodup.sublist
      (List.Sublist.map _ (List.filter_sublist _)) hB
  · intro a ha hae
    rw [List.mem_map] at ha hae
    obtain ⟨f, hf, rfl⟩ := ha
    obtain ⟨e, he, heq⟩ := hae
    exact dedupNew_not_mem existing batch f hf e he heq

/-- Appending a message whose id is absent preserves distinctness of
buffer ids. -/
theorem nodup_ids_append (l : List Message) (msg : Message)
    (hl : (l.map (fun x => x.id)).Nodup)
    (hany : l.any (fun e => e.id == msg.id) = false) :
    ((l ++ [msg]).map (fun x => x.id)).Nodup := by
  rw [List.map_append, List.nodup_append]
  refine ⟨hl, List.nodup_singleton _, ?_⟩
  intro a ha hmem
  simp only [List.map_cons, List.map_nil, List.mem_singleton] at hmem
  subst hmem
  rw [List.mem_map] at ha
  obtain ⟨e, he, heq⟩ := ha
  rw [List.any_eq_false] at hany
  exact hany e he (by simp [heq])

/-- One buffer operation preserves id-distinctness (assuming the batch of
a prepend has internally distinct ids) and keeps the previous buffer as a
subsequence. -/
theorem applyStoreOp_preserves (m : Model) (op : StoreOp)
    (hb : ∀ batch, op = StoreOp.prependOld batch →
      (batch.map (fun x => x.id)).Nodup)
    (hm : (m.messages.map (fun x => x.id)).Nodup) :
    ((applyStoreOp m op).messages.map (fun x => x.id)).Nodup ∧
    m.messages.Sublist (applyStoreOp m op).messages := by
  cases op with
  | appendNew msg =>
    show ((handleNewMessage m msg).messages.map (fun x => x.id)).Nodup ∧
      m.messages.Sublist (handleNewMessage m msg).messages
    rcases handleNewMessage_messages m msg with h | ⟨h, hany⟩
    · rw [h]
      exact ⟨hm, List.Sublist.refl _⟩
    · rw [h]
      exact ⟨nodup_ids_append _ _ hm hany, List.sublist_append_left _ _⟩
  | prependOld batch =>
    have hBatch := hb batch rfl
    show (((handleOlderMessages m batch).1.messages.map
        (fun x => x.id)).Nodup) ∧
      m.messages.Sublist (handleOlderMessages m batch).1.messages
    rcases handleOlderMessages_messages m batch with h | h
    · rw [h]
      exact ⟨hm, List.Sublist.refl _⟩
    · rw [h]
      exact ⟨nodup_ids_prepend _ _ hBatch hm,
        List.sublist_append_right _ _⟩

/-- Invariance of the scroll invariant under rewrites of the four fields
it reads. -/
theorem ScrollInv_congr {m1 m2 : Model} (h : ScrollInv m1)
    (ho : m2.scrollOffset = m1.scrollOffset)
    (hc : m2.messageCursor = m1.messageCursor)
    (hm : m2.messages = m1.messages) (hh : m2.height = m1.height) :
    ScrollInv m2 := by
  unfold ScrollInv at h ⊢
  rw [ho, hc, getDisplayMessages_congr hm,
    maxScroll_eq_of_display (getDisplayMessages_congr hm) hh]
  exact h

/-- Setting only the cursor leaves the maximum scroll unchanged. -/
theorem maxScroll_set_cursor (m : Model) (c : Int) :
    maxScroll { m with messageCursor := c } = maxScroll m :=
  maxScroll_eq_of_display rfl rfl

/-- Setting only the offset leaves the maximum scroll unchanged. -/
theorem maxScroll_set_offset (m : Model) (x : Int) :
    maxScroll { m with scrollOffset := x } = maxScroll m :=
  maxScroll_eq_of_display rfl rfl

/-- `ensureCursorVisible` establishes the scroll invariant from the
cursor bounds alone: the offset it produces is pinned to zero or
clamped. -/
theorem ensureCursorVisible_inv (m : Model)
    (h3 : -1 ≤ m.messageCursor)
    (h4 : m.messageCursor ≤ ((getDisplayMessages m).length : Int) - 1) :
    ScrollInv (ensureCursorVisible m) := by
  obtain ⟨hm, hc, hh⟩ := ensureCursorVisible_fields m
  have hd : getDisplayMessages (ensureCursorVisible m) =
      getDisplayMessages m := getDisplayMessages_congr hm
  have hms : maxScroll (ensureCursorVisible m) = maxScroll m :=
    maxScroll_eq_of_display hd hh
  rcases ensureCursorVisible_offset m with ⟨hcm, hoff⟩ | ⟨hcm, hemp, heq⟩ |
    ⟨ha, hb⟩
  · refine ⟨by rw [hoff], ?_, by rw [hc]; exact h3, by rw [hc, hd]; exact h4⟩
    rw [hoff, hms]
    exact maxScroll_nonneg m
  · exfalso
    have : (0 : Int) ≤ m.messageCursor := by omega
    omega
  · exact ⟨ha, by rw [hms]; exact hb, by rw [hc]; exact h3,
      by rw [hc, hd]; exact h4⟩

/-- The up-key handler preserves the scroll invariant. -/
theorem handleUpMain_inv (m : Model) (h : ScrollInv m) :
    ScrollInv (handleUpMain m).1 := by
  obtain ⟨h1, h2, h3, h4⟩ := h
  unfold handleUpMain
  dsimp only
  split
  · exact ⟨h1, h2, h3, h4⟩
  · rename_i hne
    split
    · rename_i hcm
      refine ⟨h1, ?_, ?_, ?_⟩
      · rw [maxScroll_set_cursor]
        exact h2
      · dsimp only
        split_ifs <;> omega
      · show _ ≤ ((getDisplayMessages m).length : Int) - 1
        dsimp only
        split_ifs <;> omega
    · rename_i hcm
      split
      · rename_i hpos
        apply ensureCursorVisible_inv
        · show (-1 : Int) ≤ m.messageCursor - 1
          omega
        · show m.messageCursor - 1 ≤ ((getDisplayMessages m).length : Int) - 1
          omega
      · split
        · split
          · refine ⟨(clampScrollOffset_mem m _).1, ?_, h3, h4⟩
            rw [maxScroll_set_offset]
            exact (clampScrollOffset_mem m _).2
          · split
            · exact ⟨h1, h2, h3, h4⟩
            · exact ⟨h1, h2, h3, h4⟩
        · exact ⟨h1, h2, h3, h4⟩

/-- The down-key handler preserves the scroll invariant. -/
theorem handleDownMain_inv (m : Model) (h : ScrollInv m) :
    ScrollInv (handleDownMain m) := by
  obtain ⟨h1, h2, h3, h4⟩ := h
  unfold handleDownMain
  dsimp only
  split
  · exact ⟨h1, h2, h3, h4⟩
  · rename_i hne
    split
    · split
      · refine ⟨(clampScrollOffset_mem m _).1, ?_, h3, h4⟩
        rw [maxScroll_set_offset]
        exact (clampScrollOffset_mem m _).2
      · exact ⟨h1, h2, h3, h4⟩
    · rename_i hcm
      split
      · rename_i hlt
        apply ensureCursorVisible_inv
        · show (-1 : Int) ≤ m.messageCursor + 1
          omega
        · show m.messageCursor + 1 ≤ ((getDisplayMessages m).length : Int) - 1
          omega
      · split
        · split
          · refine ⟨(clampScrollOffset_mem m _).1, ?_, h3, h4⟩
            rw [maxScroll_set_offset]
            exact (clampScrollOffset_mem m _).2
          · exact ⟨h1, h2, h3, h4⟩
        · exact ⟨h1, h2, h3, h4⟩

/-- The page-up handler preserves the scroll invariant. -/
theorem handlePgUpMain_inv (m : Model) (h : ScrollInv m) :
    ScrollInv (handlePgUpMain m).1 := by
  obtain ⟨h1, h2, h3, h4⟩ := h
  unfold handlePgUpMain
  dsimp only
  split
  · exact ⟨h1, h2, h3, h4⟩
  · rename_i hne
    rw [apply_ite Prod.fst]
    dsimp only
    rw [ite_self]
    apply ensureCursorVisible_inv
    · show (-1 : Int) ≤ _
      simp only [messagePageJumpMin, messagePageJumpDiv]
      split_ifs <;> omega
    · show _ ≤ ((getDisplayMessages m).length : Int) - 1
      simp only [messagePageJumpMin, messagePageJumpDiv]
      split_ifs <;> omega

/-- The page-down handler preserves the scroll invariant. -/
theorem handlePgDownMain_inv (m : Model) (h : ScrollInv m) :
    ScrollInv (handlePgDownMain m) := by
  obtain ⟨h1, h2, h3, h4⟩ := h
  unfold handlePgDownMain
  dsimp only
  split
  · exact ⟨h1, h2, h3, h4⟩
  · rename_i hne
    apply ensureCursorVisible_inv
    · show (-1 : Int) ≤ _
      simp only [messagePageJumpMin, messagePageJumpDiv]
      split_ifs <;> omega
    · show _ ≤ ((getDisplayMessages m).length : Int) - 1
      simp only [messagePageJumpMin, messagePageJumpDiv]
      split_ifs <;> omega

/-- Appending one message can only lengthen the display list. -/
theorem display_append_le (m : Model) (msg : Message) :
    (getDisplayMessages m).length ≤
      (getDisplayMessages { m with
        messages := m.messages ++ [msg] }).length := by
  unfold getDisplayMessages
  rw [List.filter_append, List.length_append]
  omega

/-- The live-append handler preserves the scroll invariant. -/
theorem handleNewMessage_inv (m : Model) (msg : Message) (h : ScrollInv m) :
    ScrollInv (handleNewMessage m msg) := by
  obtain ⟨h1, h2, h3, h4⟩ := h
  have hlen2 : (getDisplayMessages m).length ≤
      ((m.messages ++ [msg]).filter (fun x => !isThreadReply x)).length := by
    unfold getDisplayMessages
    rw [List.filter_append, List.length_append]
    omega
  unfold handleNewMessage
  dsimp only
  split
  · split
    · split
      · exact ⟨h1, h2, h3, h4⟩
      · split
        · refine ⟨le_refl 0, maxScroll_nonneg _, h3, ?_⟩
          show m.messageCursor ≤
            (((m.messages ++ [msg]).filter
              (fun x => !isThreadReply x)).length : Int) - 1
          omega
        · refine ⟨(clampScrollOffset_mem
            { m with messages := m.messages ++ [msg] } _).1, ?_, h3, ?_⟩
          · exact (clampScrollOffset_mem
              { m with messages := m.messages ++ [msg] } _).2
          · show m.messageCursor ≤
              (((m.messages ++ [msg]).filter
                (fun x => !isThreadReply x)).length : Int) - 1
            omega
    · exact ⟨h1, h2, h3, h4⟩
  · exact ⟨h1, h2, h3, h4⟩

/-- The initial-load handler establishes the scroll invariant outright. -/
theorem handleMessagesMsg_inv (m : Model) (msgs : List Message) :
    ScrollInv (handleMessagesMsg m msgs).1 := by
  unfold handleMessagesMsg
  dsimp only
  rw [apply_ite Prod.fst]
  rw [ite_self]
  refine ⟨le_refl 0, maxScroll_nonneg _, ?_, ?_⟩
  · show (-1 : Int) ≤ -1
    omega
  · show (-1 : Int) ≤ _ - 1
    omega

/-- The older-batch handler preserves the scroll invariant. -/
theorem handleOlderMessages_inv (m : Model) (batch : List Message)
    (h : ScrollInv m) : ScrollInv (handleOlderMessages m batch).1 := by
  obtain ⟨h1, h2, h3, h4⟩ := h
  unfold handleOlderMessages
  dsimp only
  split
  · rename_i hblen
    split
    · rename_i hdc
      have hnewpos : 0 < (dedupNew m.messages batch).length := by
        have hfl := List.length_filter_le (fun x => !isThreadReply x)
          (dedupNew m.messages batch)
        omega
      rw [if_pos hnewpos]
      have hlen : ((getDisplayMessages { m with
          messages := dedupNew m.messages batch ++ m.messages }).length : Int) =
          (((dedupNew m.messages batch).filter
            (fun x => !isThreadReply x)).length : Int) +
          ((getDisplayMessages m).length : Int) := by
        unfold getDisplayMessages
        dsimp only
        rw [List.filter_append, List.length_append]
        push_cast
        ring
      split
      · rename_i hcurpos
        apply ensureCursorVisible_inv
        · show (-1 : Int) ≤ m.messageCursor +
            (((dedupNew m.messages batch).filter
              (fun x => !isThreadReply x)).length : Int)
          omega
        · show m.messageCursor +
            (((dedupNew m.messages batch).filter
              (fun x => !isThreadReply x)).length : Int) ≤
            ((getDisplayMessages { m with
              messages := dedupNew m.messages batch ++
                m.messages }).length : Int) - 1
          omega
      · rename_i hcurneg
        apply ensureCursorVisible_inv
        · show (-1 : Int) ≤ m.messageCursor
          exact h3
        · show m.messageCursor ≤
            ((getDisplayMessages { m with
              messages := dedupNew m.messages batch ++
                m.messages }).length : Int) - 1
          omega
    · rename_i hdc
      have hfnil : (dedupNew m.messages batch).filter
          (fun x => !isThreadReply x) = [] := by
        have : ((dedupNew m.messages batch).filter
            (fun x => !isThreadReply x)).length = 0 := by omega
        exact List.length_eq_zero.mp this
      rw [apply_ite Prod.fst]
      dsimp only
      rw [ite_self]
      split
      · refine ⟨h1, ?_, h3, ?_⟩
        · have hd : getDisplayMessages { m with
              messages := dedupNew m.messages batch ++ m.messages } =
              getDisplayMessages m := by
            unfold getDisplayMessages
            dsimp only
            rw [List.filter_append, hfnil, List.nil_append]
          rw [show maxScroll { m with
              messages := dedupNew m.messages batch ++ m.messages } =
              maxScroll m from maxScroll_eq_of_display hd rfl]
          exact h2
        · have hd : getDisplayMessages { m with
              messages := dedupNew m.messages batch ++ m.messages } =
              getDisplayMessages m := by
            unfold getDisplayMessages
            dsimp only
            rw [List.filter_append, hfnil, List.nil_append]
          rw [hd]
          exact h4
      · exact ⟨h1, h2, h3, h4⟩
  · exact ⟨h1, h2, h3, h4⟩

/-- The space-key sidebar handler never drives the offset negative or the
cursor below minus one: it either keeps both, or resets them to zero and
minus one. -/
theorem handleSpaceSidebar_weak (m : Model) (chans : Option (List Channel))
    (h1 : 0 ≤ m.scrollOffset) (h3 : -1 ≤ m.messageCursor) :
    0 ≤ (handleSpaceSidebar m chans).scrollOffset ∧
    -1 ≤ (handleSpaceSidebar m chans).messageCursor := by
  unfold handleSpaceSidebar
  dsimp only
  split
  · split
    · split
      · exact ⟨h1, h3⟩
      · split
        · exact ⟨h1, h3⟩
        · exact ⟨h1, h3⟩
    · exact ⟨h1, h3⟩
  · split
    · split
      · exact ⟨le_refl 0, le_refl (-1)⟩
      · exact ⟨h1, h3⟩
    · exact ⟨h1, h3⟩

/-- The space-key sidebar handler preserves the scroll invariant unless
it is an in-range team select (which clears the buffer without resetting
the cursor or the offset). -/
theorem handleSpaceSidebar_inv (m : Model) (chans : Option (List Channel))
    (h : ScrollInv m)
    (hnot : ¬(m.selectedType = NavItemType.team ∧ 0 ≤ m.selected ∧
      m.selected < (m.teams.length : Int))) :
    ScrollInv (handleSpaceSidebar m chans) := by
  obtain ⟨h1, h2, h3, h4⟩ := h
  unfold handleSpaceSidebar
  dsimp only
  split
  · rename_i hteam
    split
    · rename_i hrange
      exact absurd ⟨hteam, hrange.1, hrange.2⟩ hnot
    · exact ⟨h1, h2, h3, h4⟩
  · split
    · split
      · refine ⟨le_refl 0, maxScroll_nonneg _, ?_, ?_⟩
        · show (-1 : Int) ≤ -1
          omega
        · show (-1 : Int) ≤ _ - 1
          omega
      · exact ⟨h1, h2, h3, h4⟩
    · exact ⟨h1, h2, h3, h4⟩

/-- Sidebar navigation never touches the scroll state, the buffer or the
terminal height. -/
theorem navigateSidebar_fields (m : Model) (delta : Int) :
    (navigateSidebar m delta).scrollOffset = m.scrollOffset ∧
    (navigateSidebar m delta).messageCursor = m.messageCursor ∧
    (navigateSidebar m delta).messages = m.messages ∧
    (navigateSidebar m delta).height = m.height := by
  unfold navigateSidebar
  dsimp only
  split
  · exact ⟨rfl, rfl, rfl, rfl⟩
  · exact ⟨rfl, rfl, rfl, rfl⟩

/-- In the success branch of the older-batch handler (non-empty batch,
at least one new root post, active cursor) the buffer gains exactly the
deduplicated new messages at the front, the cursor moves forward by the
new root-post count, and no fetch is issued. -/
theorem handleOlderMessages_root (m : Model) (batch : List Message)
    (hb : 0 < batch.length)
    (hdc : 0 < ((dedupNew m.messages batch).filter
      (fun x => !isThreadReply x)).length)
    (hcur : 0 ≤ m.messageCursor) :
    (handleOlderMessages m batch).1.messages =
      dedupNew m.messages batch ++ m.messages ∧
    (handleOlderMessages m batch).1.messageCursor =
      m.messageCursor + (((dedupNew m.messages batch).filter
        (fun x => !isThreadReply x)).length : Int) ∧
    (handleOlderMessages m batch).2 = none := by
  have hnewpos : 0 < (dedupNew m.messages batch).length := by
    have h1 := List.length_filter_le (fun x => !isThreadReply x)
      (dedupNew m.messages batch)
    omega
  have hdcInt : 0 < (((dedupNew m.messages batch).filter
      (fun x => !isThreadReply x)).length : Int) := by
    exact_mod_cast hdc
  unfold handleOlderMessages
  dsimp only
  rw [if_pos hb, if_pos hdcInt, if_pos hnewpos]
  split
  · refine ⟨?_, ?_, rfl⟩
    · rw [(ensureCursorVisible_fields _).1]
    · rw [(ensureCursorVisible_fields _).2.1]
  · rename_i h
    exact absurd hcur h

/-! Claim theorems. -/

/-- C1 counterexample: the older-batch dedup loop checks each fetched
message against the existing buffer only, never against the other batch
elements, so a batch repeating a fresh id internally is prepended with
both copies and the buffer ends with two messages of equal id. -/
theorem C1_counterexample :
    ¬ (((handleOlderMessages testModel [dupMsg, dupMsg]).1.messages.map
        (fun x => x.id)).Nodup) := by decide

/-- C1 amended: for every sequence of live-message appends and
older-batch prepends in which each prepended batch has internally
distinct ids, a buffer with distinct ids keeps distinct ids, and the
messages held before the sequence survive in their relative order (the
old buffer is a sublist of the new one); the original claim fails only
for batches that repeat an id internally. -/
theorem C1_store_invariant (ops : List StoreOp) (m : Model)
    (hb : ∀ batch, StoreOp.prependOld batch ∈ ops →
      (batch.map (fun x => x.id)).Nodup)
    (hm : (m.messages.map (fun x => x.id)).Nodup) :
    ((applyStoreOps m ops).messages.map (fun x => x.id)).Nodup ∧
    m.messages.Sublist (applyStoreOps m ops).messages := by
  induction ops generalizing m with
  | nil => exact ⟨hm, List.Sublist.refl _⟩
  | cons op rest ih =>
    have hstep := applyStoreOp_preserves m op
      (fun batch h => hb batch (by rw [← h]; exact List.mem_cons_self _ _))
      hm
    have hrest := ih (applyStoreOp m op)
      (fun batch h => hb batch (List.mem_cons_of_mem _ h)) hstep.1
    exact ⟨hrest.1, hstep.2.trans hrest.2⟩

/-- C1 witness: a concrete append-then-prepend sequence on a three-message
buffer keeps ids distinct and preserves the original messages as a
subsequence. -/
theorem C1_store_invariant_witness :
    ((applyStoreOps { testModel with messages := msgs3 } opsW).messages.map
      (fun x => x.id)).Nodup ∧
    msgs3.Sublist
      (applyStoreOps { testModel with messages := msgs3 } opsW).messages := by
  have h := C1_store_invariant opsW { testModel with messages := msgs3 }
    (fun batch hmem => by
      simp only [opsW, List.mem_cons, List.not_mem_nil, or_false] at hmem
      rcases hmem with hmem | hmem
      · exact absurd hmem (by simp)
      · rw [show batch = [mkMsg "p", mkMsg "q"] by
          exact (StoreOp.prependOld.injEq _ _).mp hmem.symm ▸ rfl]
        decide)
    (by decide)
  exact h

set_option maxRecDepth 4000 in
/-- C4 counterexample: two reachable violations of the claimed invariant.
First, the `WindowSizeMsg` handler stores the new size without
re-clamping, so a state reached by loading ten one-line messages,
shrinking the terminal, scrolling to the top and growing the terminal has
a scroll offset strictly above the maximum scroll.  Second, the sidebar
team-select clears the message buffer without resetting the message
cursor, so a state reached by loading messages, placing the cursor and
selecting a team with the space key has a cursor strictly above the last
display index. -/
theorem C4_counterexample :
    (maxScroll (runTrace (initialModel cfg0) traceC4).1 <
      (runTrace (initialModel cfg0) traceC4).1.scrollOffset) ∧
    (((getDisplayMessages (runTrace (initialModel cfg0)
        traceC4b).1).length : Int) - 1 <
      (runTrace (initialModel cfg0) traceC4b).1.messageCursor) := by decide

/-- C4 amended: from any state satisfying the scroll invariant, every
step keeps the offset non-negative and the cursor at least minus one;
every step other than a terminal resize and an in-range sidebar
team-select re-establishes the full invariant
(`0 ≤ offset ≤ maxScroll` and `-1 ≤ cursor ≤ len(display) - 1`).  A
resize that grows the viewport can leave the offset above the new
maximum scroll, and a team-select clears the buffer without resetting
the cursor or the offset, so it can leave the cursor above the last
display index. -/
theorem C4_scroll_invariant (m : Model) (i : Input) (h : ScrollInv m) :
    (0 ≤ (step m i).1.scrollOffset ∧ -1 ≤ (step m i).1.messageCursor) ∧
    ((∀ w hh, i ≠ Input.resize w hh) →
     (∀ chans, i = Input.keySpace chans →
        ¬(m.focus = Focus.sidebar ∧ m.selectedType = NavItemType.team ∧
          0 ≤ m.selected ∧ m.selected < (m.teams.length : Int))) →
      ScrollInv (step m i).1) := by
  have hstrong : (∀ w hh, i ≠ Input.resize w hh) →
      (∀ chans, i = Input.keySpace chans →
        ¬(m.focus = Focus.sidebar ∧ m.selectedType = NavItemType.team ∧
          0 ≤ m.selected ∧ m.selected < (m.teams.length : Int))) →
      ScrollInv (step m i).1 := by
    intro hne hsp
    cases i with
    | resize w hh => exact absurd rfl (hne w hh)
    | keyCtrlB =>
      dsimp only [step]
      split <;> exact ScrollInv_congr h rfl rfl rfl rfl
    | keyUp =>
      dsimp only [step]
      split
      · obtain ⟨ho, hc, hm, hh⟩ := navigateSidebar_fields m (-1)
        exact ScrollInv_congr h ho hc hm hh
      · exact handleUpMain_inv m h
    | keyDown =>
      dsimp only [step]
      split
      · obtain ⟨ho, hc, hm, hh⟩ := navigateSidebar_fields m 1
        exact ScrollInv_congr h ho hc hm hh
      · exact handleDownMain_inv m h
    | keyPgUp =>
      dsimp only [step]
      split
      · exact handlePgUpMain_inv m h
      · exact h
    | keyPgDown =>
      dsimp only [step]
      split
      · exact handlePgDownMain_inv m h
      · exact h
    | keySpace chans =>
      dsimp only [step]
      split
      · rename_i hfoc
        apply handleSpaceSidebar_inv m chans h
        intro hbad
        exact hsp chans rfl ⟨hfoc, hbad.1, hbad.2.1, hbad.2.2⟩
      · exact ScrollInv_congr h rfl rfl rfl rfl
    | connected teams channels =>
      dsimp only [step]
      split
      · split <;> exact ScrollInv_congr h rfl rfl rfl rfl
      · exact ScrollInv_congr h rfl rfl rfl rfl
    | newMessage msg => exact handleNewMessage_inv m msg h
    | messagesLoad msgs => exact handleMessagesMsg_inv m msgs
    | olderMessages msgs => exact handleOlderMessages_inv m msgs h
  refine ⟨?_, hstrong⟩
  cases i with
  | resize w hh => exact ⟨h.1, h.2.2.1⟩
  | keyCtrlB =>
    have s := hstrong (fun w hh hc => by cases hc) (fun chans hc => by cases hc)
    exact ⟨s.1, s.2.2.1⟩
  | keyUp =>
    have s := hstrong (fun w hh hc => by cases hc) (fun chans hc => by cases hc)
    exact ⟨s.1, s.2.2.1⟩
  | keyDown =>
    have s := hstrong (fun w hh hc => by cases hc) (fun chans hc => by cases hc)
    exact ⟨s.1, s.2.2.1⟩
  | keyPgUp =>
    have s := hstrong (fun w hh hc => by cases hc) (fun chans hc => by cases hc)
    exact ⟨s.1, s.2.2.1⟩
  | keyPgDown =>
    have s := hstrong (fun w hh hc => by cases hc) (fun chans hc => by cases hc)
    exact ⟨s.1, s.2.2.1⟩
  | keySpace chans =>
    dsimp only [step]
    split
    · exact handleSpaceSidebar_weak m chans h.1 h.2.2.1
    · exact ⟨h.1, h.2.2.1⟩
  | connected teams channels =>
    dsimp only [step]
    split
    · split
      · exact ⟨h.1, h.2.2.1⟩
      · exact ⟨h.1, h.2.2.1⟩
    · exact ⟨h.1, h.2.2.1⟩
  | newMessage msg =>
    have s := hstrong (fun w hh hc => by cases hc) (fun chans hc => by cases hc)
    exact ⟨s.1, s.2.2.1⟩
  | messagesLoad msgs =>
    have s := hstrong (fun w hh hc => by cases hc) (fun chans hc => by cases hc)
    exact ⟨s.1, s.2.2.1⟩
  | olderMessages msgs =>
    have s := hstrong (fun w hh hc => by cases hc) (fun chans hc => by cases hc)
    exact ⟨s.1, s.2.2.1⟩

/-- C4 witness: the amended invariant exercised at a concrete state
(three root posts, cursor on the second) with an up-key step. -/
theorem C4_scroll_invariant_witness :
    (0 ≤ (step mCursor Input.keyUp).1.scrollOffset ∧
      -1 ≤ (step mCursor Input.keyUp).1.messageCursor) ∧
    ScrollInv (step mCursor Input.keyUp).1 :=
  ⟨(C4_scroll_invariant mCursor Input.keyUp
      ⟨by decide, by decide, by decide, by decide⟩).1,
   (C4_scroll_invariant mCursor Input.keyUp
      ⟨by decide, by decide, by decide, by decide⟩).2
     (fun w hh hc => by cases hc) (fun chans hc => by cases hc)⟩

/-- C5: when an older-message batch is empty, or every id in it already
occurs in the buffer (so the deduplicated new set is empty), the
`olderMessagesMsg` handler leaves the model unchanged and issues no
further fetch request. -/
theorem C5_older_batch_stops (m : Model) (batch : List Message)
    (h : batch = [] ∨
      ∀ b ∈ batch, m.messages.any (fun e => e.id == b.id) = true) :
    handleOlderMessages m batch = (m, none) := by
  rcases h with h | h
  · subst h
    simp [handleOlderMessages]
  · have hded : dedupNew m.messages batch = [] := by
      rw [dedupNew, List.filter_eq_nil_iff]
      intro b hb
      simp [h b hb]
    unfold handleOlderMessages
    split
    · simp [hded]
    · rfl

/-- C5 witness: a concrete buffer and a batch that repeats only known
ids; the handler returns the unchanged model with no request. -/
theorem C5_older_batch_stops_witness :
    handleOlderMessages { testModel with messages := msgs3 } [mkMsg "b"] =
      ({ testModel with messages := msgs3 }, none) :=
  C5_older_batch_stops _ _ (Or.inr (by decide))

/-- C6: a non-empty initial load with zero root posts and an active
channel issues exactly one older fetch anchored at the first (oldest)
loaded message id; a load with at least one root post issues none. -/
theorem C6_initial_load_fetch (m : Model) (batch : List Message) :
    (((batch.filter (fun x => !isThreadReply x)).length = 0 ∧ batch ≠ [] ∧
        0 ≤ m.current ∧ m.current < (m.channels.length : Int)) →
      handleMessagesMsg m batch =
        ({ m with messages := batch, scrollOffset := 0, messageCursor := -1 },
         some { channelID := activeChannelID m,
                beforeID := (batch.getD 0 defaultMsg).id })) ∧
    (0 < (batch.filter (fun x => !isThreadReply x)).length →
      (handleMessagesMsg m batch).2 = none) := by
  constructor
  · rintro ⟨h0, hne, hc0, hc1⟩
    have hl : 0 < batch.length := List.length_pos.mpr hne
    unfold handleMessagesMsg
    rw [if_pos]
    · rfl
    · refine ⟨?_, hl, hc0, hc1⟩
      exact_mod_cast congrArg (Nat.cast : Nat → Int) h0
  · intro hpos
    unfold handleMessagesMsg
    rw [if_neg]
    intro hc
    have := hc.1
    omega

/-- C6 witness: a two-reply load against an active channel issues one
fetch anchored at the first message; a root-post load issues none. -/
theorem C6_initial_load_fetch_witness :
    handleMessagesMsg testModel [mkReply "r1", mkReply "r2"] =
      ({ testModel with
         messages := [mkReply "r1", mkReply "r2"], scrollOffset := 0,
         messageCursor := -1 },
       some { channelID := activeChannelID testModel, beforeID := "r1" }) ∧
    (handleMessagesMsg testModel msgs3).2 = none := by
  constructor
  · exact (C6_initial_load_fetch testModel [mkReply "r1", mkReply "r2"]).1
      ⟨by decide, by decide, by decide, by decide⟩
  · exact (C6_initial_load_fetch testModel msgs3).2 (by decide)

/-- C3 counterexample: the event loop has no in-flight gate: from a
reachable state with the cursor at the top of loaded history, each of two
consecutive up-key inputs issues an older-fetch for the same anchor
before any result is processed, so two identical requests are
outstanding at once. -/
theorem C3_counterexample :
    (runTrace testModel traceC3).2 =
      [{ channelID := "c1", beforeID := "a" },
       { channelID := "c1", beforeID := "a" }] := by decide

/-- C3 amended: each processed input issues at most one older-fetch
request, and an up-key fetch is issued only from the main focus with the
cursor on the top message and no scroll room left, anchored at the oldest
loaded message of the active channel; but nothing prevents a second
outstanding fetch for the same anchor before the first resolves. -/
theorem C3_single_fetch_per_input (m : Model) (i : Input) :
    (step m i).2.toList.length ≤ 1 ∧
    (∀ r : FetchOlderReq, i = Input.keyUp → (step m i).2 = some r →
      m.focus = Focus.main ∧ m.messageCursor = 0 ∧
      maxScroll m ≤ m.scrollOffset ∧
      r.channelID = activeChannelID m ∧
      r.beforeID = (m.messages.getD 0 defaultMsg).id) := by
  constructor
  · cases h : (step m i).2 <;> simp
  · rintro r rfl hr
    cases hfoc : m.focus with
    | sidebar =>
      rw [show step m Input.keyUp = (navigateSidebar m (-1), none) by
        simp [step, hfoc]] at hr
      simp at hr
    | main =>
      rw [show step m Input.keyUp = handleUpMain m by
        simp [step, hfoc]] at hr
      unfold handleUpMain at hr
      dsimp only at hr
      split at hr
      · simp at hr
      · split at hr
        · simp at hr
        · split at hr
          · simp at hr
          · split at hr
            · rename_i hcur _ _ hzero
              split at hr
              · simp at hr
              · split at hr
                · rename_i hguard
                  simp only [Option.some.injEq] at hr
                  subst hr
                  exact ⟨rfl, hzero, hguard.1, rfl, rfl⟩
                · simp at hr
            · simp at hr

/-- C3 witness: the amended statement exercised at the concrete
top-of-history model, where the up key issues the fetch for channel `c1`
anchored at message `a`. -/
theorem C3_single_fetch_per_input_witness :
    (step mTopC3 Input.keyUp).2.toList.length ≤ 1 ∧
    (mTopC3.focus = Focus.main ∧ mTopC3.messageCursor = 0 ∧
      maxScroll mTopC3 ≤ mTopC3.scrollOffset ∧
      ({ channelID := "c1", beforeID := "a" } : FetchOlderReq).channelID =
        activeChannelID mTopC3 ∧
      ({ channelID := "c1", beforeID := "a" } : FetchOlderReq).beforeID =
        (mTopC3.messages.getD 0 defaultMsg).id) :=
  ⟨(C3_single_fetch_per_input mTopC3 Input.keyUp).1,
   (C3_single_fetch_per_input mTopC3 Input.keyUp).2
     { channelID := "c1", beforeID := "a" } rfl (by decide)⟩

/-- C7: the display list is the subsequence of the buffer obtained by
excluding exactly the thread replies: it is a sublist, its length is the
buffer length minus the number of thread replies, and it never exceeds
the buffer length. -/
theorem C7_display_subsequence (m : Model) :
    (getDisplayMessages m).Sublist m.messages ∧
    (getDisplayMessages m).length =
      m.messages.length - m.messages.countP (fun x => isThreadReply x) ∧
    (getDisplayMessages m).length ≤ m.messages.length := by
  refine ⟨List.filter_sublist _, ?_, ?_⟩
  · rw [getDisplayMessages, ← List.countP_eq_length_filter]
    have h := List.length_eq_countP_add_countP
      (fun x => isThreadReply x) m.messages
    have e : m.messages.countP (fun a => decide ¬(isThreadReply a = true)) =
        m.messages.countP (fun x => !isThreadReply x) := by
      apply List.countP_congr
      intro a _
      simp
    omega
  · rw [getDisplayMessages]
    exact List.length_filter_le _ _

/-- C2 counterexample: the initial-load handler performs no channel-id
check, so a load whose messages belong to channel `c2` replaces the
buffer of the model whose active channel is `c1`; the claim that such a
result is discarded and no foreign message enters the buffer is false. -/
theorem C2_counterexample :
    (handleMessagesMsg testModel [staleLoad]).1.messages = [staleLoad] ∧
    staleLoad.channelID ≠ activeChannelID testModel := by
  constructor
  · rfl
  · decide

/-- C2 amended: only the single materialized-message path
(`newMessageMsg`) compares the channel id of the fetch result with the
active channel; on a mismatch that handler leaves the model unchanged.
Initial-load and older-batch results are applied without any channel
check. -/
theorem C2_new_message_mismatch_discarded (m : Model) (msg : Message)
    (h : msg.channelID ≠ activeChannelID m) :
    handleNewMessage m msg = m := by
  simp [handleNewMessage, h]

/-- C2 witness: a live message for channel `c2` leaves the `c1` model
untouched. -/
theorem C2_new_message_mismatch_discarded_witness :
    handleNewMessage testModel staleLoad = testModel :=
  C2_new_message_mismatch_discarded testModel staleLoad (by decide)

/-- C8: sidebar navigation is wrap-around: on an empty nav list it is a
no-op; otherwise, from a selection occurring at position `p`, one step of
`navigateSidebar delta` selects the item at the non-negatively normalized
position `(p + delta) mod length`, and applying `navigateSidebar 1`
exactly `length` many times returns the selection to its starting item. -/
theorem C8_nav_wraparound (m : Model) (delta : Int) :
    (getNavItems m = [] → navigateSidebar m delta = m) ∧
    (∀ p : Nat, p < (getNavItems m).length →
      (getNavItems m).getD p { itemType := NavItemType.team, index := 0 } =
        { itemType := m.selectedType, index := m.selected } →
      ({ itemType := (navigateSidebar m delta).selectedType,
         index := (navigateSidebar m delta).selected } : NavItem) =
        (getNavItems m).getD
          (((p : Int) + delta) % ((getNavItems m).length : Int)).toNat
          { itemType := NavItemType.team, index := 0 } ∧
      (navIter m (getNavItems m).length).selectedType = m.selectedType ∧
      (navIter m (getNavItems m).length).selected = m.selected) := by
  constructor
  · intro h
    simp [navigateSidebar, h]
  · intro p hp hsel
    refine ⟨(navigateSidebar_sel m delta p hp hsel).2.2.2, ?_⟩
    have h := (navIter_sel (getNavItems m).length m p hp hsel).2
    have e : (p + (getNavItems m).length) % (getNavItems m).length = p := by
      rw [Nat.add_mod_right]
      exact Nat.mod_eq_of_lt hp
    rw [e, hsel] at h
    exact ⟨congrArg NavItem.itemType h, congrArg NavItem.index h⟩

/-- C8 witness: on the concrete five-item nav list (two teams, two
channels, one DM) starting at position zero, one forward step selects
position one and five forward steps return to the start. -/
theorem C8_nav_wraparound_witness :
    ({ itemType := (navigateSidebar navModel 1).selectedType,
       index := (navigateSidebar navModel 1).selected } : NavItem) =
      (getNavItems navModel).getD
        ((((0 : Nat) : Int) + 1) % ((getNavItems navModel).length : Int)).toNat
        { itemType := NavItemType.team, index := 0 } ∧
    (navIter navModel (getNavItems navModel).length).selectedType =
      navModel.selectedType ∧
    (navIter navModel (getNavItems navModel).length).selected =
      navModel.selected :=
  (C8_nav_wraparound navModel 1).2 0 (by decide) (by decide)

/-- C10: when an older-batch merge brings at least one new root post and
the cursor is active, the cursor index grows by exactly the number of new
root posts, and the display entry it points at is the same message as
before the merge. -/
theorem C10_cursor_stable (m : Model) (batch : List Message)
    (hc : 0 ≤ m.messageCursor)
    (hlt : m.messageCursor < ((getDisplayMessages m).length : Int))
    (hk : 0 < ((dedupNew m.messages batch).filter
      (fun x => !isThreadReply x)).length) :
    (handleOlderMessages m batch).1.messageCursor =
      m.messageCursor + (((dedupNew m.messages batch).filter
        (fun x => !isThreadReply x)).length : Int) ∧
    (getDisplayMessages
        (handleOlderMessages m batch).1)[((handleOlderMessages m
          batch).1.messageCursor).toNat]? =
      (getDisplayMessages m)[m.messageCursor.toNat]? ∧
    (getDisplayMessages m)[m.messageCursor.toNat]? ≠ none := by
  have hb : 0 < batch.length := by
    have h1 := List.length_filter_le (fun x => !isThreadReply x)
      (dedupNew m.messages batch)
    have h2 : (dedupNew m.messages batch).length ≤ batch.length :=
      List.Sublist.length_le (List.filter_sublist batch)
    omega
  obtain ⟨hmsg, hcur, -⟩ := handleOlderMessages_root m batch hb hk hc
  have hd : getDisplayMessages (handleOlderMessages m batch).1 =
      (dedupNew m.messages batch).filter (fun x => !isThreadReply x) ++
        getDisplayMessages m := by
    have e : getDisplayMessages (handleOlderMessages m batch).1 =
        getDisplayMessages { m with
          messages := dedupNew m.messages batch ++ m.messages } :=
      getDisplayMessages_congr hmsg
    rw [e]
    unfold getDisplayMessages
    exact List.filter_append _ _
  refine ⟨hcur, ?_, ?_⟩
  · rw [hcur, hd]
    have htn : (m.messageCursor + (((dedupNew m.messages batch).filter
        (fun x => !isThreadReply x)).length : Int)).toNat =
        ((dedupNew m.messages batch).filter
          (fun x => !isThreadReply x)).length + m.messageCursor.toNat := by
      omega
    rw [htn]
    rw [List.getElem?_append_right (by omega)]
    congr 1
    omega
  · have hlen : m.messageCursor.toNat < (getDisplayMessages m).length := by
      omega
    simp [List.getElem?_eq_getElem hlen]

/-- C10 witness: with the cursor on the second of three root posts,
merging a batch of one new root post and one new thread reply moves the
cursor from one to two and leaves it on the same message. -/
theorem C10_cursor_stable_witness :
    (handleOlderMessages mCursor batchC10).1.messageCursor =
      mCursor.messageCursor + (((dedupNew mCursor.messages batchC10).filter
        (fun x => !isThreadReply x)).length : Int) ∧
    (getDisplayMessages
        (handleOlderMessages mCursor batchC10).1)[((handleOlderMessages
          mCursor batchC10).1.messageCursor).toNat]? =
      (getDisplayMessages mCursor)[mCursor.messageCursor.toNat]? ∧
    (getDisplayMessages mCursor)[mCursor.messageCursor.toNat]? ≠ none :=
  C10_cursor_stable mCursor batchC10 (by decide) (by decide) (by decide)

/-- C9 counterexample: with a host present but no token and no
username/password pair, `main` does not exit before the view-model is
constructed: it builds the model and starts the event loop, and the
missing credentials only surface later as an asynchronous error message
from `connectToMattermost`. -/
theorem C9_counterexample :
    mainStartup cfgHostNoCreds =
      StartupResult.runWithModel (initialModel cfgHostNoCreds) ∧
    connectValidate cfgHostNoCreds =
      ConnectOutcome.configError "authentication required" := by
  constructor
  · rfl
  · rfl

/-- C9 amended: only a missing `-host` flag is a fatal startup error that
exits with status one before the model is constructed; with a host
present the model is always constructed, and missing credentials are
detected by the asynchronous connect validation and reported as an error
to the running loop. -/
theorem C9_startup_validation (cfg : Config) :
    (cfg.host = "" → mainStartup cfg = StartupResult.exitBeforeModel 1) ∧
    (cfg.host ≠ "" →
      mainStartup cfg = StartupResult.runWithModel (initialModel cfg)) ∧
    (cfg.host ≠ "" → cfg.token = "" →
      (cfg.loginID = "" ∨ cfg.password = "") →
      connectValidate cfg =
        ConnectOutcome.configError "authentication required") := by
  refine ⟨?_, ?_, ?_⟩
  · intro h
    unfold mainStartup
    rw [if_pos h]
  · intro h
    unfold mainStartup
    rw [if_neg h]
  · intro hh ht hlp
    unfold connectValidate
    rw [if_neg hh]
    dsimp only
    rw [if_pos]
    rw [ht]
    rcases hlp with hl | hp
    · rw [hl]
      simp
    · rw [hp]
      simp

/-- C9 witness: the amended behavior at two concrete configurations: an
empty host exits before the model; a host with no credentials constructs
the model and the connect validation reports the credential error. -/
theorem C9_startup_validation_witness :
    mainStartup cfgEmptyHost = StartupResult.exitBeforeModel 1 ∧
    mainStartup cfgHostNoCreds =
      StartupResult.runWithModel (initialModel cfgHostNoCreds) ∧
    connectValidate cfgHostNoCreds =
      ConnectOutcome.configError "authentication required" :=
  ⟨(C9_startup_validation cfgEmptyHost).1 rfl,
   (C9_startup_validation cfgHostNoCreds).2.1 (by decide),
   (C9_startup_validation cfgHostNoCreds).2.2 (by decide) rfl (Or.inl rfl)⟩

end Termu
